import Mathlib

/-!
Verification of the media-mirror dashboard server (`src/dashboard/server.py`)
against its natural-language specification.

The Python source is shallowly embedded: file contents are lists of
characters, the process table and PID file are explicit state records,
JSON documents are structures with optional fields, and every fallible
operation returns `Except`/`Option`.  Each embedded definition mirrors one
Python function of the source, keeping its name where Lean allows it.
-/

set_option autoImplicit false

namespace MediaMirror

/-! ## Python string primitives used by the config store -/

/-- Whitespace characters removed by Python `str.strip()` with no argument. -/
def pySpace (c : Char) : Bool :=
  c == ' ' || c == '\t' || c == '\n' || c == '\r' || c == '\x0b' || c == '\x0c'

/-- Python `str.lstrip`-style removal of leading characters satisfying `p`. -/
def lstrip (p : Char → Bool) (l : List Char) : List Char :=
  l.dropWhile p

/-- Python `str.rstrip`-style removal of trailing characters satisfying `p`. -/
def rstrip (p : Char → Bool) (l : List Char) : List Char :=
  (l.reverse.dropWhile p).reverse

/-- Python `str.strip(chars)`: drop every leading and trailing character
satisfying `p` (not just one layer). -/
def pyStripWith (p : Char → Bool) (l : List Char) : List Char :=
  rstrip p (lstrip p l)

/-- Python `str.strip()` (whitespace, both ends, all occurrences). -/
def pyStrip (l : List Char) : List Char :=
  pyStripWith pySpace l

/-- Python `str.strip(q)` for a single quote character `q`: removes every
leading and every trailing occurrence of `q`. -/
def stripAllChar (q : Char) (l : List Char) : List Char :=
  pyStripWith (fun c => c == q) l

/-- Python file iteration / `readlines`: split the byte stream after each
newline, keeping the newline at the end of each line; a final fragment
without a newline is kept as a last line. -/
def readlines : List Char → List (List Char)
  | [] => []
  | c :: cs =>
    if c = '\n' then ['\n'] :: readlines cs
    else
      match readlines cs with
      | [] => [[c]]
      | l :: ls => (c :: l) :: ls

/-- Does the line start with the given character (Python `str.startswith`)?
Empty lines do not. -/
def startsWithChar (q : Char) : List Char → Bool
  | [] => false
  | c :: _ => c == q

/-- Python `str.partition(sep)` restricted to the before/after pieces:
split at the first occurrence of `sep`; when `sep` is absent the whole
input is the first component and the second is empty. -/
def pyPartition (sep : Char) : List Char → List Char × List Char
  | [] => ([], [])
  | c :: cs =>
    if c = sep then ([], cs)
    else
      let r := pyPartition sep cs
      (c :: r.1, r.2)

/-! ## Config store (`read_config`, `write_config`, server.py lines 28-69) -/

/-- A Python `dict` over string keys, as an association list in insertion
order: setting an existing key overwrites in place, a new key is appended. -/
def dictSet (k v : List Char) : List (List Char × List Char) → List (List Char × List Char)
  | [] => [(k, v)]
  | (k0, v0) :: rest => if k0 = k then (k0, v) :: rest else (k0, v0) :: dictSet k v rest

/-- Lookup in the association-list dictionary. -/
def dictGet (k : List Char) : List (List Char × List Char) → Option (List Char)
  | [] => none
  | (k0, v0) :: rest => if k0 = k then some v0 else dictGet k rest

/-- The value transformation applied by `read_config` (server.py line 36):
`val.strip().strip(doublequote).strip(singlequote)`. -/
def stripValue (v : List Char) : List Char :=
  stripAllChar '\x27' (stripAllChar '"' (pyStrip v))

/-- One iteration of the `read_config` loop (server.py lines 32-36): strip
the raw line; if it is nonempty, not a `#` comment and contains `=`, split
at the first `=` and store the stripped key with the quote-stripped value. -/
def configLineStep (cfg : List (List Char × List Char)) (rawLine : List Char) :
    List (List Char × List Char) :=
  let line := pyStrip rawLine
  if line ≠ [] ∧ startsWithChar '#' line = false ∧ '=' ∈ line then
    let kv := pyPartition '=' line
    dictSet (pyStrip kv.1) (stripValue kv.2) cfg
  else cfg

/-- `read_config` (server.py lines 28-39) applied to the contents of an
existing config file. -/
def read_config (content : List Char) : List (List Char × List Char) :=
  (readlines content).foldl configLineStep []

/-- One iteration of the `write_config` rewrite loop (server.py lines
53-61).  The accumulator carries `new_lines` and the `updated_keys` set (in
encounter order; only membership matters).  A nonempty non-comment line
containing `=` whose key is in `updates` is replaced by `key="value"` with
a newline; every other line passes through verbatim. -/
def writeLineStep (updates : List (List Char × List Char))
    (acc : List (List Char) × List (List Char)) (line : List Char) :
    List (List Char) × List (List Char) :=
  let stripped := pyStrip line
  if stripped ≠ [] ∧ startsWithChar '#' stripped = false ∧ '=' ∈ stripped then
    let key := pyStrip (pyPartition '=' stripped).1
    match dictGet key updates with
    | some v => (acc.1 ++ [key ++ '=' :: '"' :: (v ++ ['"', '\n'])], acc.2 ++ [key])
    | none => (acc.1 ++ [line], acc.2)
  else (acc.1 ++ [line], acc.2)

/-- The append phase of `write_config` (server.py lines 64-66): every
update key not consumed by the rewrite loop is appended as a fresh
`key="value"` line, in dictionary order. -/
def appendNew (updatedKeys : List (List Char)) (updates : List (List Char × List Char)) :
    List (List Char) :=
  (updates.filter (fun kv => !(updatedKeys.contains kv.1))).map
    (fun kv => kv.1 ++ '=' :: '"' :: (kv.2 ++ ['"', '\n']))

/-- `write_config` (server.py lines 42-69) applied to the contents of an
existing config file, returning the bytes written back. -/
def write_config (updates : List (List Char × List Char)) (content : List Char) : List Char :=
  let lines := readlines content
  let step := lines.foldl (writeLineStep updates) ([], [])
  (step.1 ++ appendNew step.2 updates).flatten

/-! ## Round-trip lemmas for `readlines` -/

theorem readlines_ne_nil (c : Char) (cs : List Char) : readlines (c :: cs) ≠ [] := by
  simp only [readlines]
  split
  · simp
  · split <;> simp

theorem flatten_readlines (cs : List Char) : (readlines cs).flatten = cs := by
  induction cs with
  | nil => rfl
  | cons c cs ih =>
    simp only [readlines]
    by_cases h : c = '\n'
    · subst h
      simp [List.flatten_cons, ih]
    · rw [if_neg h]
      cases hr : readlines cs with
      | nil =>
        cases cs with
        | nil => simp
        | cons d ds => exact absurd hr (readlines_ne_nil d ds)
      | cons l ls =>
        have hjoin : (l :: ls).flatten = cs := by rw [← hr]; exact ih
        simp only [List.flatten_cons] at hjoin ⊢
        rw [List.cons_append, hjoin]

theorem foldl_writeLineStep_empty (lines : List (List Char)) :
    ∀ acc : List (List Char) × List (List Char),
      lines.foldl (writeLineStep []) acc = (acc.1 ++ lines, acc.2) := by
  induction lines with
  | nil => intro acc; simp
  | cons line rest ih =>
    intro acc
    have hstep : writeLineStep [] acc line = (acc.1 ++ [line], acc.2) := by
      unfold writeLineStep
      dsimp only
      split <;> rfl
    rw [List.foldl_cons, hstep, ih]
    simp

/-- C6: applying `write_config` with an empty update mapping reproduces the
config file byte-for-byte: every comment, blank line and key line, and
their order, pass through unchanged. -/
theorem write_config_empty_id (content : List Char) :
    write_config [] content = content := by
  unfold write_config
  dsimp only
  rw [foldl_writeLineStep_empty]
  simp [appendNew, flatten_readlines]

/-! ## Stripping lemmas for clean (whitespace-free) values -/

theorem dropWhile_keep_of_head {p : Char → Bool} {c : Char} {l : List Char}
    (h : p c = false) : (c :: l).dropWhile p = c :: l := by
  simp [List.dropWhile, h]

theorem dropWhile_eq_self_of_all {p : Char → Bool} {l : List Char}
    (h : ∀ c ∈ l, p c = false) : l.dropWhile p = l := by
  cases l with
  | nil => rfl
  | cons c cs => exact dropWhile_keep_of_head (h c (List.mem_cons_self c cs))

theorem pyStrip_eq_self_of_clean {v : List Char} (h : ∀ c ∈ v, pySpace c = false) :
    pyStrip v = v := by
  unfold pyStrip pyStripWith lstrip rstrip
  rw [dropWhile_eq_self_of_all h]
  rw [dropWhile_eq_self_of_all (fun c hc => h c (List.mem_reverse.mp hc))]
  exact List.reverse_reverse v

theorem pyStrip_keyline (v : List Char) (hne : v ≠ [])
    (hs : ∀ c ∈ v, pySpace c = false) :
    pyStrip ('K' :: 'E' :: 'Y' :: '=' :: (v ++ ['\n'])) = 'K' :: 'E' :: 'Y' :: '=' :: v := by
  unfold pyStrip pyStripWith lstrip rstrip
  rw [dropWhile_keep_of_head (by decide)]
  have hrev : ('K' :: 'E' :: 'Y' :: '=' :: (v ++ ['\n'])).reverse
      = '\n' :: (v.reverse ++ ['=', 'Y', 'E', 'K']) := by simp
  rw [hrev]
  rw [show List.dropWhile pySpace ('\n' :: (v.reverse ++ ['=', 'Y', 'E', 'K']))
      = List.dropWhile pySpace (v.reverse ++ ['=', 'Y', 'E', 'K']) by
    simp only [List.dropWhile, show pySpace '\n' = true from rfl]]
  cases hv : v.reverse with
  | nil => exact absurd (by simpa using congrArg List.reverse hv) hne
  | cons c cs =>
    have hc : c ∈ v := List.mem_reverse.mp (hv ▸ List.mem_cons_self c cs)
    rw [List.cons_append, dropWhile_keep_of_head (hs c hc), ← List.cons_append, ← hv]
    simp

/-! ## Per-line behaviour of the `read_config` loop -/

theorem configLineStep_comment (cfg : List (List Char × List Char)) :
    configLineStep cfg ['#', ' ', 'n', '\n'] = cfg := by
  unfold configLineStep
  dsimp only
  rw [show pyStrip ['#', ' ', 'n', '\n'] = ['#', ' ', 'n'] from by decide]
  rw [if_neg (by decide)]

theorem configLineStep_blank (cfg : List (List Char × List Char)) :
    configLineStep cfg ['\n'] = cfg := by
  unfold configLineStep
  dsimp only
  rw [show pyStrip ['\n'] = [] from by decide]
  rw [if_neg (by decide)]

theorem pyPartition_keyline (v : List Char) :
    pyPartition '=' ('K' :: 'E' :: 'Y' :: '=' :: v) = (['K', 'E', 'Y'], v) := by
  simp [pyPartition]

theorem configLineStep_keyline (cfg : List (List Char × List Char)) (v : List Char)
    (hne : v ≠ []) (hs : ∀ c ∈ v, pySpace c = false) :
    configLineStep cfg ('K' :: 'E' :: 'Y' :: '=' :: (v ++ ['\n'])) =
      dictSet ['K', 'E', 'Y'] (stripValue v) cfg := by
  unfold configLineStep
  dsimp only
  rw [pyStrip_keyline v hne hs]
  rw [if_pos ⟨by simp, rfl, by simp⟩]
  rw [pyPartition_keyline]
  rw [show pyStrip ['K', 'E', 'Y'] = ['K', 'E', 'Y'] from by decide]

/-! ## A sample config file with a comment, a blank line and a duplicate key -/

/-- A four-line config file: `# n`, `KEY=<v1>`, an empty line, `KEY=<v2>`. -/
def cfgSample (v1 v2 : List Char) : List Char :=
  ['#', ' ', 'n'] ++ '\n' ::
    (('K' :: 'E' :: 'Y' :: '=' :: v1) ++ '\n' :: '\n' ::
      (('K' :: 'E' :: 'Y' :: '=' :: v2) ++ ['\n']))

theorem readlines_append_line (l rest : List Char) (h : '\n' ∉ l) :
    readlines (l ++ '\n' :: rest) = (l ++ ['\n']) :: readlines rest := by
  induction l with
  | nil => simp [readlines]
  | cons c l ih =>
    have hc : c ≠ '\n' := fun e => h (by simp [e])
    have hl : '\n' ∉ l := fun m => h (by simp [m])
    rw [List.cons_append]
    simp only [readlines]
    rw [if_neg hc, ih hl]
    simp

theorem readlines_cfgSample (v1 v2 : List Char)
    (h1 : '\n' ∉ v1) (h2 : '\n' ∉ v2) :
    readlines (cfgSample v1 v2) =
      [['#', ' ', 'n', '\n'],
       'K' :: 'E' :: 'Y' :: '=' :: (v1 ++ ['\n']),
       ['\n'],
       'K' :: 'E' :: 'Y' :: '=' :: (v2 ++ ['\n'])] := by
  unfold cfgSample
  rw [readlines_append_line _ _ (by decide)]
  rw [readlines_append_line _ _ (by simpa using h1)]

  rw [show ('\n' :: (('K' :: 'E' :: 'Y' :: '=' :: v2) ++ ['\n']))
      = [] ++ '\n' :: (('K' :: 'E' :: 'Y' :: '=' :: v2) ++ ['\n']) from rfl]
  rw [readlines_append_line _ _ (by simp)]
  rw [show (('K' :: 'E' :: 'Y' :: '=' :: v2) ++ ['\n'])
      = ('K' :: 'E' :: 'Y' :: '=' :: v2) ++ '\n' :: [] from rfl]
  rw [readlines_append_line _ _ (by simpa using h2)]
  simp [readlines]

/-- C7 (amended): on a config file with a comment line, a `KEY=v1` line, a
blank line and a duplicate `KEY=v2` line (values nonempty and
whitespace-free), `read_config` ignores the comment and the blank line,
parses both `key=value` lines, lets the last occurrence of the duplicate
key win, and strips ALL leading and trailing double-quote characters and
then all leading and trailing single-quote characters from the value — not
just one layer of matching quotes. -/
theorem read_config_semantics (v1 v2 : List Char) (h1 : v1 ≠ []) (h2 : v2 ≠ [])
    (hs1 : ∀ c ∈ v1, pySpace c = false) (hs2 : ∀ c ∈ v2, pySpace c = false) :
    read_config (cfgSample v1 v2) =
      [(['K', 'E', 'Y'], stripAllChar '\x27' (stripAllChar '"' v2))] := by
  have hn1 : '\n' ∉ v1 := fun m => absurd (hs1 '\n' m) (by decide)
  have hn2 : '\n' ∉ v2 := fun m => absurd (hs2 '\n' m) (by decide)
  unfold read_config
  rw [readlines_cfgSample v1 v2 hn1 hn2]
  simp only [List.foldl_cons, List.foldl_nil]
  rw [configLineStep_comment, configLineStep_keyline _ v1 h1 hs1,
    configLineStep_blank, configLineStep_keyline _ v2 h2 hs2]
  simp [dictSet, stripValue, pyStrip_eq_self_of_clean hs2]

/-- Witness for C7 (amended): the duplicate-keyed sample file with second
value `""v""` parses to the single binding `KEY = v`, with every layer of
quotes stripped. -/
theorem read_config_semantics_witness :
    read_config (cfgSample ['x'] ['"', '"', 'v', '"', '"']) =
      [(['K', 'E', 'Y'], ['v'])] := by
  rw [read_config_semantics ['x'] ['"', '"', 'v', '"', '"']
    (by decide) (by decide) (by decide) (by decide)]
  decide

/-- Modelled from the spec wording of C7 ("stripping one layer of matching
quote characters"): remove exactly one leading and one trailing quote
character when they are present and equal, and change nothing otherwise. -/
def stripOneMatchingQuote (v : List Char) : List Char :=
  match v with
  | [] => []
  | c :: rest =>
    if (c = '"' ∨ c = '\x27') ∧ rest.getLast? = some c then rest.dropLast
    else c :: rest

/-- C7 counterexample: for the line `KEY=""v""`, `read_config` produces the
value `v` (all quote layers removed), while stripping exactly one layer of
matching quotes would produce `"v"`; the claim as stated is false. -/
theorem read_config_strip_counterexample :
    dictGet ['K', 'E', 'Y'] (read_config ("KEY=\"\"v\"\"\n".data)) = some ['v'] ∧
    stripOneMatchingQuote ['"', '"', 'v', '"', '"'] = ['"', 'v', '"'] ∧
    (['v'] : List Char) ≠ ['"', 'v', '"'] := by
  refine ⟨by decide, by decide, by decide⟩

/-! ## Process supervisor model (server.py lines 111-159) -/

/-- One entry of the OS process table: the PID, whether the command line
matches the worker's invocation signature (`media-mirror.sh` under the
install dir), and whether the dashboard's user may signal it (`false`
models an existing process owned by another user, where a signal raises
`PermissionError`). -/
structure Proc where
  pid : Int
  matchesSig : Bool
  signalable : Bool
deriving DecidableEq

/-- The state visible to the supervisor: the `runner.pid` file (absent or
its contents) and the process table. -/
structure SupState where
  pidFile : Option (List Char)
  procs : List Proc
deriving DecidableEq

/-- Value of a nonempty all-digit numeral; `none` otherwise. -/
def digitsVal (l : List Char) : Option Nat :=
  if l ≠ [] ∧ l.all Char.isDigit then
    some (l.foldl (fun acc c => acc * 10 + (c.toNat - 48)) 0)
  else none

/-- Python `int(s)` on an already-stripped string, for the shapes relevant
to PID files: an optional sign followed by decimal digits; anything else
raises `ValueError`, modelled as `none`. -/
def parsePyInt (l : List Char) : Option Int :=
  match l with
  | '-' :: rest => (digitsVal rest).map (fun n => -(n : Int))
  | '+' :: rest => (digitsVal rest).map (fun n => (n : Int))
  | _ => (digitsVal l).map (fun n => (n : Int))

/-- Outcome of the zero-effect probe `os.kill(pid, 0)`: success when a
signalable process with that PID exists, `PermissionError` when the
process exists but may not be signalled, `ProcessLookupError` otherwise. -/
inductive Probe
  | ok
  | eperm
  | esrch
deriving DecidableEq

def kill0 (procs : List Proc) (pid : Int) : Probe :=
  match procs.find? (fun q => q.pid == pid) with
  | some q => if q.signalable then .ok else .eperm
  | none => .esrch

/-- `get_runner_pid` (server.py lines 111-119): read and parse the PID
file, probe the named process with signal 0, and return the PID only when
the probe succeeds; `FileNotFoundError`, `ValueError`,
`ProcessLookupError` and `PermissionError` all yield `None`. -/
def get_runner_pid (s : SupState) : Option Int :=
  match s.pidFile with
  | none => none
  | some content =>
    match parsePyInt (pyStrip content) with
    | none => none
    | some pid =>
      match kill0 s.procs pid with
      | .ok => some pid
      | .eperm => none
      | .esrch => none

/-- The probe as a state transformer, mirroring that the Python function
performs no writes at all: the state (in particular the PID file) is
returned untouched. -/
def get_runner_pid_st (s : SupState) : Option Int × SupState :=
  (get_runner_pid s, s)

/-- Python truthiness of a `get_runner_pid()` result: `None` and `0` are
falsy. -/
def pidTruthy (r : Option Int) : Bool :=
  match r with
  | none => false
  | some p => p != 0

/-- Result dictionary of `start_runner`. -/
structure StartResult where
  ok : Bool
  pid : Option Int
  error : Option (List Char)
deriving DecidableEq

/-- `start_runner` (server.py lines 122-134): refuse when the liveness
probe reports a truthy PID; otherwise launch `/bin/bash media-mirror.sh`
detached in its own session with stdout/stderr appended to log files,
modelled as a fresh signature-matching process entering the table.  The
supervisor does not write the PID file. -/
def start_runner (s : SupState) (freshPid : Int) : StartResult × SupState :=
  if pidTruthy (get_runner_pid s) then
    ({ ok := false, pid := none, error := some "Runner is already running".data }, s)
  else
    ({ ok := true, pid := some freshPid, error := none },
     { s with procs := s.procs ++ [{ pid := freshPid, matchesSig := true, signalable := true }] })

/-- Result dictionary of `stop_runner`. -/
structure StopResult where
  ok : Bool
  stopped : Int
deriving DecidableEq

/-- `stop_runner` (server.py lines 137-159): record the live PID (if any);
`pkill -9 -f <install>/media-mirror.sh`, which kills every signalable
process whose command line matches the worker signature; additionally
SIGKILL the recorded PID, swallowing `ProcessLookupError` and
`PermissionError`; remove the PID file, swallowing absence; return ok with
the recorded PID, or 0 when none was live. -/
def stop_runner (s : SupState) : StopResult × SupState :=
  let pid := get_runner_pid s
  let afterPkill := s.procs.filter (fun q => !(q.matchesSig && q.signalable))
  let afterKill :=
    if pidTruthy pid then
      afterPkill.filter (fun q => !(q.pid == pid.getD 0 && q.signalable))
    else afterPkill
  ({ ok := true, stopped := pid.getD 0 }, { pidFile := none, procs := afterKill })

/-! ## C5: the liveness probe -/

/-- C5 (amended): the probe returns the recorded PID exactly when the PID
file parses to a PID naming a process that exists AND may be signalled by
the dashboard's user; an existing process whose probe raises
`PermissionError` is reported as not running, exactly like a stale or
unparsable file.  The probe performs no writes: the state, and in
particular the PID file, is untouched. -/
theorem get_runner_pid_spec (s : SupState) (p : Int) :
    (get_runner_pid s = some p ↔
      ∃ content, s.pidFile = some content ∧ parsePyInt (pyStrip content) = some p ∧
        kill0 s.procs p = Probe.ok) ∧
    get_runner_pid_st s = (get_runner_pid s, s) := by
  refine ⟨⟨?_, ?_⟩, rfl⟩
  · intro h
    unfold get_runner_pid at h
    cases hf : s.pidFile with
    | none => rw [hf] at h; exact absurd h (by simp)
    | some content =>
      rw [hf] at h
      dsimp only at h
      cases hp : parsePyInt (pyStrip content) with
      | none => rw [hp] at h; exact absurd h (by simp)
      | some q =>
        rw [hp] at h
        dsimp only at h
        cases hk : kill0 s.procs q with
        | ok =>
          rw [hk] at h
          have hq : q = p := by simpa using h
          subst hq
          exact ⟨content, rfl, hp, hk⟩
        | eperm => rw [hk] at h; exact absurd h (by simp)
        | esrch => rw [hk] at h; exact absurd h (by simp)
  · rintro ⟨content, hf, hp, hk⟩
    unfold get_runner_pid
    rw [hf]
    dsimp only
    rw [hp]
    dsimp only
    rw [hk]

/-- Witness state for C5: PID file `42`, process 42 live and signalable. -/
def sLive : SupState :=
  { pidFile := some ['4', '2'], procs := [{ pid := 42, matchesSig := true, signalable := true }] }

/-- Witness for C5: on the concrete state `sLive` the probe returns 42,
and the characterisation's right-hand side holds there concretely. -/
theorem get_runner_pid_spec_witness :
    get_runner_pid sLive = some 42 ∧ get_runner_pid_st sLive = (some 42, sLive) := by
  have h := (get_runner_pid_spec sLive 42).1.mpr ⟨['4', '2'], rfl, by decide, by decide⟩
  refine ⟨h, ?_⟩
  rw [(get_runner_pid_spec sLive 42).2, h]

/-- Counterexample state for C5: PID file records 7, and process 7 exists
in the table but may not be signalled. -/
def sEperm : SupState :=
  { pidFile := some ['7'], procs := [{ pid := 7, matchesSig := true, signalable := false }] }

/-- C5 counterexample: the PID file holds `7` and a process with PID 7
exists, yet the probe returns `none` — the probe's `PermissionError`
handler treats an existing process as not running, so "exactly when the
process exists" is false. -/
theorem get_runner_pid_eperm_counterexample :
    (sEperm.procs.find? (fun q => q.pid == 7)).isSome = true ∧
    parsePyInt (pyStrip ['7']) = some 7 ∧
    get_runner_pid sEperm = none := by
  refine ⟨by decide, by decide, by decide⟩

/-! ## C4: start and the singleton property -/

theorem start_runner_pidFile (t : SupState) (f : Int) :
    (start_runner t f).2.pidFile = t.pidFile := by
  unfold start_runner
  split <;> rfl

theorem start_ok_of_noPidFile (t : SupState) (f : Int) (h : t.pidFile = none) :
    (start_runner t f).1.ok = true := by
  have h1 : pidTruthy (get_runner_pid t) = false := by
    unfold get_runner_pid
    rw [h]
    rfl
  unfold start_runner
  rw [h1]
  simp

/-- C4 (amended): `start_runner` returns ok false (with an error message)
exactly when the liveness probe reports a truthy PID, leaving the state
unchanged; otherwise it returns ok true with the fresh PID and adds one
detached signature-matching worker process, without writing the PID file.
Consequently a second start right after a first start fails only once the
launched worker has recorded its PID; while the PID file is still absent,
the second start succeeds as well. -/
theorem start_runner_spec (s : SupState) (fresh fresh2 : Int) :
    (pidTruthy (get_runner_pid s) = true →
      (start_runner s fresh).1 =
        { ok := false, pid := none, error := some "Runner is already running".data } ∧
      (start_runner s fresh).2 = s) ∧
    (pidTruthy (get_runner_pid s) = false →
      (start_runner s fresh).1 = { ok := true, pid := some fresh, error := none } ∧
      (start_runner s fresh).2.pidFile = s.pidFile ∧
      (start_runner s fresh).2.procs =
        s.procs ++ [{ pid := fresh, matchesSig := true, signalable := true }]) ∧
    (s.pidFile = none →
      (start_runner (start_runner s fresh).2 fresh2).1.ok = true) := by
  refine ⟨fun h => ?_, fun h => ?_, fun h => ?_⟩
  · unfold start_runner
    rw [h]
    exact ⟨rfl, rfl⟩
  · unfold start_runner
    rw [h]
    exact ⟨rfl, rfl, rfl⟩
  · have h2 : (start_runner s fresh).2.pidFile = none := by
      rw [start_runner_pidFile]
      exact h
    exact start_ok_of_noPidFile _ fresh2 h2

/-- Witness for C4 (amended): with PID file `42` and live process 42, a
start attempt fails with the error; from the empty state a start succeeds. -/
theorem start_runner_spec_witness :
    (start_runner sLive 7).1 =
      { ok := false, pid := none, error := some "Runner is already running".data } ∧
    (start_runner { pidFile := none, procs := [] } 100).1 =
      { ok := true, pid := some 100, error := none } := by
  refine ⟨((start_runner_spec sLive 7 8).1 (by decide)).1,
    (((start_runner_spec { pidFile := none, procs := [] } 100 101).2.1 (by decide)).1)⟩

/-- C4 counterexample: starting twice from the empty state (no PID file —
the supervisor never writes one) yields ok on BOTH calls and two worker
processes in the table, contradicting "the second call yields ok false and
the process count remains 1". -/
theorem start_twice_counterexample :
    ((start_runner { pidFile := none, procs := [] } 100).1).ok = true ∧
    ((start_runner (start_runner { pidFile := none, procs := [] } 100).2 101).1).ok = true ∧
    ((start_runner (start_runner { pidFile := none, procs := [] } 100).2 101).2).procs.length = 2 := by
  refine ⟨by decide, by decide, by decide⟩

/-! ## C3: stop -/

/-- C3 (amended): `stop_runner` always returns ok and never fails: it
removes every signalable process matching the worker signature (a matching
process of another user survives the `pkill`), kills the PID-file process
when it was live, unconditionally clears the PID file, and reports as
`stopped` the recorded PID when the PID file named a live signalable
process at call time and 0 otherwise — in particular 0 for a stale PID
file whose recorded PID is dead.  An immediate second stop returns ok with
stopped 0. -/
theorem stop_runner_spec (s : SupState) :
    (stop_runner s).1.ok = true ∧
    (stop_runner s).1.stopped = (get_runner_pid s).getD 0 ∧
    (stop_runner s).2.pidFile = none ∧
    (∀ q ∈ (stop_runner s).2.procs, ¬(q.matchesSig = true ∧ q.signalable = true)) ∧
    (stop_runner (stop_runner s).2).1 = { ok := true, stopped := 0 } := by
  refine ⟨rfl, rfl, rfl, ?_, ?_⟩
  · intro q hq
    unfold stop_runner at hq
    dsimp only at hq
    rintro ⟨hm, hsg⟩
    have hq2 : q ∈ s.procs.filter (fun q => !(q.matchesSig && q.signalable)) := by
      by_cases ht : pidTruthy (get_runner_pid s) = true
      · rw [if_pos ht] at hq
        exact List.mem_of_mem_filter hq
      · rw [if_neg ht] at hq
        exact hq
    have := List.of_mem_filter hq2
    rw [hm, hsg] at this
    exact absurd this (by decide)
  · unfold stop_runner
    dsimp only
    rfl

/-- Witness for C3 (amended): PID file `42` with live matching process 42:
stop reports stopped 42, clears the table of matching processes and the
PID file, and a second stop reports stopped 0. -/
theorem stop_runner_spec_witness :
    (stop_runner sLive).1.ok = true ∧
    (stop_runner sLive).1.stopped = 42 ∧
    (stop_runner sLive).2.pidFile = none ∧
    (stop_runner (stop_runner sLive).2).1 = { ok := true, stopped := 0 } := by
  have h := stop_runner_spec sLive
  refine ⟨h.1, ?_, h.2.2.1, h.2.2.2.2⟩
  rw [h.2.1]
  decide

/-- Counterexample state for C3: a stale PID file recording 123 while no
process 123 exists, and a signature-matching worker process 99 owned by
another user (`pkill` cannot signal it, so its SIGKILL fails with EPERM
and the process survives). -/
def sStale : SupState :=
  { pidFile := some ['1', '2', '3'],
    procs := [{ pid := 99, matchesSig := true, signalable := false }] }

/-- C3 counterexample, refuting both halves of the claim at one state.
The PID file records 123 (parseable), yet `stop_runner` returns stopped 0
rather than the recorded PID 123, because the recorded process is dead —
"p is the PID recorded before cleanup" fails for a stale PID file.  And
the signature-matching process 99 is still in the process table after the
stop, because signalling it fails with a permission error — "terminates
every process matching the worker's invocation signature" fails too. -/
theorem stop_runner_stale_counterexample :
    parsePyInt (pyStrip ['1', '2', '3']) = some 123 ∧
    (stop_runner sStale).1 = { ok := true, stopped := 0 } ∧
    (123 : Int) ≠ 0 ∧
    ({ pid := 99, matchesSig := true, signalable := false } : Proc)
      ∈ (stop_runner sStale).2.procs := by
  refine ⟨by decide, by decide, by decide, by decide⟩

/-! ## State reader and ETA projection (server.py lines 20-25, 166-252) -/

/-- A `started`/`updated` timestamp field of a job as found in the JSON
document: absent (or the falsy empty string), present (truthy) but not
parseable by `datetime.fromisoformat`, or present and parseable with the
given value in epoch seconds. -/
inductive Ts
  | absent
  | unparseable
  | parseable (secs : ℚ)
deriving DecidableEq

/-- Python truthiness of `j.get("started")`: a present, nonempty string. -/
def Ts.truthy : Ts → Bool
  | .absent => false
  | .unparseable => true
  | .parseable _ => true

/-- `datetime.fromisoformat`, raising on an unparseable string, modelled
as `none`. -/
def Ts.parse : Ts → Option ℚ
  | .parseable q => some q
  | _ => none

/-- One job of the shared state document; pipeline-specific extra fields
are irrelevant to the handler and omitted. -/
structure Job where
  status : String
  started : Ts
  updated : Ts
deriving DecidableEq

/-- The `runner` object of the state document. -/
structure Runner where
  status : String
  paused : Bool
deriving DecidableEq

/-- The `inventory` object; absent numeric fields default to 0 via
`.get(name, 0)`. -/
structure Inventory where
  source_total : Option Int
  dest_done : Option Int
deriving DecidableEq

/-- A parsed JSON state document: each top-level key may be absent.  The
`stats` object is passed through opaquely, so only its presence is
modelled. -/
structure Doc where
  jobs : Option (List Job)
  stats : Option Unit
  runner : Option Runner
  inventory : Option Inventory
deriving DecidableEq

/-- The default document substituted by `read_state` (server.py line 25):
empty job list, empty stats, runner unknown/unpaused, and no inventory
key. -/
def defaultDoc : Doc :=
  { jobs := some [], stats := some (), runner := some { status := "unknown", paused := false },
    inventory := none }

/-- The possible conditions of the shared state file: absent
(`FileNotFoundError` on open), present but unreadable (an I/O error such
as `PermissionError` on open), present but not valid JSON
(`json.JSONDecodeError`), or valid JSON parsing to a document. -/
inductive StateFile
  | absent
  | unreadable
  | invalid
  | valid (d : Doc)
deriving DecidableEq

/-- `read_state` (server.py lines 20-25): only `FileNotFoundError` and
`json.JSONDecodeError` are caught and replaced by the default document;
any other error — an unreadable file — propagates to the caller. -/
def read_state (f : StateFile) : Except String Doc :=
  match f with
  | .absent => .ok defaultDoc
  | .invalid => .ok defaultDoc
  | .unreadable => .error "PermissionError"
  | .valid d => .ok d

/-- The fully-populated `eta` dictionary (server.py lines 196-203). -/
structure Eta where
  avg_per_file_secs : Int
  source_total : Int
  completed : Int
  remaining : Int
  est_remaining_hours : ℚ
  est_remaining_days : ℚ
deriving DecidableEq

/-- The value bound to the `eta` key of the status response: initialised
to the empty dict (server.py line 176) and only ever reassigned whole
inside the `try` block, so it is either empty or fully populated. -/
inductive EtaField
  | emptyDict
  | populated (e : Eta)
deriving DecidableEq

/-- Python `round(x)`: round half to even (banker's rounding). -/
def pyRound (q : ℚ) : Int :=
  if q - ⌊q⌋ < 1/2 then ⌊q⌋
  else if 1/2 < q - ⌊q⌋ then ⌊q⌋ + 1
  else if 2 ∣ ⌊q⌋ then ⌊q⌋ else ⌊q⌋ + 1

/-- Python `round(x, 1)`: one decimal place, half to even. -/
def pyRound1 (q : ℚ) : ℚ :=
  (pyRound (q * 10) : ℚ) / 10

/-- The filter building `done_jobs_with_times` (server.py lines 177-180):
status done and both timestamp strings truthy (present and nonempty) —
parseability is NOT checked here. -/
def doneWithTimes (j : Job) : Bool :=
  j.status == "done" && (j.started.truthy && j.updated.truthy)

/-- The timing loop of the `try` block (server.py lines 184-188): elapsed
seconds per job; if `fromisoformat` raises for any job the whole batch is
abandoned (`none`). -/
def elapsedTimes : List Job → Option (List ℚ)
  | [] => some []
  | j :: js =>
    match j.started.parse, j.updated.parse, elapsedTimes js with
    | some s, some e, some rest => some ((e - s) :: rest)
    | _, _, _ => none

/-- The ETA computation of `/api/status` (server.py lines 176-205),
producing the value held by the `eta` key of the response. -/
def computeEta (jobs : List Job) (inv : Inventory) : EtaField :=
  let dwt := jobs.filter doneWithTimes
  if dwt = [] then .emptyDict
  else
    match elapsedTimes dwt with
    | none => .emptyDict
    | some times =>
      let avg : ℚ := times.sum / times.length
      let source_total := inv.source_total.getD 0
      let dest_done := inv.dest_done.getD 0
      let session_done :=
        (jobs.filter (fun j => j.status == "done" || j.status == "skipped")).length
      let total_completed := dest_done + (session_done : Int)
      let remaining :=
        if source_total ≠ 0 then max 0 (source_total - total_completed) else 0
      .populated
        { avg_per_file_secs := pyRound avg
          source_total := source_total
          completed := total_completed
          remaining := remaining
          est_remaining_hours := pyRound1 ((remaining : ℚ) * avg / 3600)
          est_remaining_days := pyRound1 ((remaining : ℚ) * avg / 86400) }

/-- Python `l[-n:]` / `tail -n`: the last `n` elements. -/
def lastN {α : Type} (n : Nat) (l : List α) : List α :=
  l.drop (l.length - n)

/-- The job-state derived portion of the `/api/status` response
dictionary (server.py lines 207-233). -/
structure StatusResp where
  runner : Option Runner
  stats : Option Unit
  eta : EtaField
  active_jobs : List Job
  recent_done : List Job
  failed : List Job
deriving DecidableEq

/-- The keys of the Python response dictionary literal (server.py lines
207-233), in order: the `eta` key is unconditionally part of the
response. -/
def statusRespKeys : List String :=
  ["runner", "runner_pid", "stats", "eta", "active_jobs", "recent_done",
   "failed", "disks", "config", "timestamp"]

/-- `GET /api/status` (server.py lines 166-235) restricted to its
job-state derived content: the subscript `state["jobs"]` (line 171)
raises `KeyError` when the document has no `jobs` key; otherwise the
response is built, with `.get` defaults for `runner`, `stats` and
`inventory`. -/
def statusHandler (d : Doc) : Except String StatusResp :=
  match d.jobs with
  | none => .error "KeyError: jobs"
  | some jobs =>
    .ok
      { runner := d.runner
        stats := d.stats
        eta := computeEta jobs (d.inventory.getD { source_total := none, dest_done := none })
        active_jobs :=
          (jobs.filter (fun j =>
            j.status == "converting" || j.status == "transferring" || j.status == "queued")).take 50
        recent_done := lastN 20 (jobs.filter (fun j => j.status == "done"))
        failed := (jobs.filter (fun j => j.status == "failed")).take 20 }

/-- `GET /api/pause` and `GET /api/resume` (server.py lines 240-252): the
assignment `state["runner"]["paused"] = b` raises `KeyError` when the
document has no `runner` key; otherwise the whole document is rewritten
with the flag set. -/
def setPaused (d : Doc) (b : Bool) : Except String Doc :=
  match d.runner with
  | none => .error "KeyError: runner"
  | some r => .ok { d with runner := some { r with paused := b } }

/-! ## The log endpoint (server.py lines 265-276) -/

/-- Conditions under which `tail -50 <logfile>` runs: the `subprocess.run`
call itself raises (timeout or exec failure); the file is missing or
unreadable, making tail exit 1 with empty stdout; or the file is readable
with the given lines. -/
inductive LogTailState
  | execFailure
  | fileMissing
  | fileLines (ls : List (List Char))
deriving DecidableEq

/-- A completed `subprocess.run` result for tail. -/
structure TailOut where
  returncode : Int
  stdout : List (List Char)
deriving DecidableEq

def runTail : LogTailState → Option TailOut
  | .execFailure => none
  | .fileMissing => some { returncode := 1, stdout := [] }
  | .fileLines ls => some { returncode := 0, stdout := lastN 50 ls }

/-- A response of the log endpoint: HTTP status and body lines. -/
structure LogResponse where
  code : Nat
  body : List (List Char)
deriving DecidableEq

/-- `GET /api/log/{name}` (server.py lines 265-276): 404 only when
`subprocess.run` raises; any completed tail — nonzero exit status
included, since `returncode` is never checked — is answered 200 with
tail's stdout. -/
def logHandler (t : LogTailState) : LogResponse :=
  match runTail t with
  | none => { code := 404, body := [] }
  | some r => { code := 200, body := r.stdout }

/-! ## C2: corrupt-state tolerance -/

/-- C2 (amended): an absent state file or malformed JSON content yields
the default empty document (`jobs:[]`, `stats:` empty, `runner:` unknown
and unpaused) with no error surfaced; but an unreadable file — an I/O
error other than absence, such as `PermissionError` — is not among the
caught exceptions and propagates to the caller. -/
theorem read_state_spec :
    read_state .absent = .ok defaultDoc ∧
    read_state .invalid = .ok defaultDoc ∧
    ∃ msg, read_state .unreadable = .error msg :=
  ⟨rfl, rfl, "PermissionError", rfl⟩

/-- C2 counterexample: for an unreadable state file (present but failing
to open with a permission error), `read_state` propagates the error
rather than returning the default document — "never raises an I/O error
to its caller" is false. -/
theorem read_state_unreadable_counterexample :
    read_state .unreadable = .error "PermissionError" ∧
    read_state .unreadable ≠ .ok defaultDoc := by
  refine ⟨rfl, by simp [read_state]⟩

/-! ## C10: valid JSON lacking expected keys -/

/-- C10: the default-empty substitution applies only to an absent or
invalid state file — a valid JSON document passes through `read_state`
unchanged — and on a valid document missing the `jobs` key, `/api/status`
raises a `KeyError` before producing any JSON response, while a document
missing the `runner` object makes `/api/pause` and `/api/resume` raise. -/
theorem valid_doc_missing_keys_raise (d : Doc) :
    read_state (.valid d) = .ok d ∧
    (d.jobs = none → statusHandler d = .error "KeyError: jobs") ∧
    (d.runner = none →
      setPaused d true = .error "KeyError: runner" ∧
      setPaused d false = .error "KeyError: runner") := by
  refine ⟨rfl, fun h => ?_, fun h => ?_⟩
  · unfold statusHandler
    rw [h]
  · unfold setPaused
    rw [h]
    exact ⟨rfl, rfl⟩

/-- Witness for C10: the valid-but-empty JSON document (no top-level keys)
passes through `read_state` unchanged, and the status and pause handlers
both raise on it. -/
theorem valid_doc_missing_keys_raise_witness :
    read_state (.valid { jobs := none, stats := none, runner := none, inventory := none })
      = .ok { jobs := none, stats := none, runner := none, inventory := none } ∧
    statusHandler { jobs := none, stats := none, runner := none, inventory := none }
      = .error "KeyError: jobs" ∧
    setPaused { jobs := none, stats := none, runner := none, inventory := none } true
      = .error "KeyError: runner" := by
  have h := valid_doc_missing_keys_raise
    { jobs := none, stats := none, runner := none, inventory := none }
  exact ⟨h.1, h.2.1 rfl, (h.2.2 rfl).1⟩

/-! ## C9: the log endpoint -/

/-- C9 (amended): the log endpoint answers 200 with the last 50 lines for
a readable log file; for a missing or unreadable log file it ALSO answers
200, with tail's empty stdout, because the nonzero tail exit status is
never checked; 404 arises only when running the tail subprocess itself
raises (timeout or exec failure). -/
theorem logHandler_spec (t : LogTailState) :
    (t = .execFailure → logHandler t = { code := 404, body := [] }) ∧
    (t = .fileMissing → logHandler t = { code := 200, body := [] }) ∧
    (∀ ls, t = .fileLines ls → logHandler t = { code := 200, body := lastN 50 ls }) := by
  refine ⟨fun h => ?_, fun h => ?_, fun ls h => ?_⟩ <;> rw [h] <;> rfl

/-- Witness for C9 (amended): a readable two-line log file is answered 200
with both lines, and an exec failure is answered 404. -/
theorem logHandler_spec_witness :
    logHandler (.fileLines [['a'], ['b']]) = { code := 200, body := [['a'], ['b']] } ∧
    logHandler .execFailure = { code := 404, body := [] } := by
  refine ⟨?_, (logHandler_spec .execFailure).1 rfl⟩
  rw [(logHandler_spec (.fileLines [['a'], ['b']])).2.2 [['a'], ['b']] rfl]
  decide

/-- C9 counterexample: for a missing log file, tail completes with exit
status 1 and empty output and no exception is raised, so the endpoint
replies 200 with an empty body — NOT 404 as the claim requires for "any
failure to produce the lines". -/
theorem log_missing_counterexample :
    runTail .fileMissing = some { returncode := 1, stdout := [] } ∧
    logHandler .fileMissing = { code := 200, body := [] } ∧
    (200 : Nat) ≠ 404 := by
  refine ⟨rfl, rfl, by decide⟩

/-! ## C1: presence and shape of the eta field -/

theorem elapsedTimes_cons_none (j : Job) (js : List Job)
    (h : j.started.parse = none ∨ j.updated.parse = none) :
    elapsedTimes (j :: js) = none := by
  unfold elapsedTimes
  rcases h with h | h
  · rw [h]
  · cases hs : j.started.parse with
    | none => rfl
    | some s => rw [h]

theorem computeEta_emptyDict (jobs : List Job) (inv : Inventory)
    (h : jobs.filter doneWithTimes = [] ∨
      elapsedTimes (jobs.filter doneWithTimes) = none) :
    computeEta jobs inv = .emptyDict := by
  unfold computeEta
  dsimp only
  rcases h with h | h
  · rw [if_pos h]
  · by_cases hd : jobs.filter doneWithTimes = []
    · rw [if_pos hd]
    · rw [if_neg hd, h]

/-- C1 (amended): the `eta` key is always present in the status response
dictionary; whenever no job has status done with both timestamps present
and parseable, its value is the EMPTY dictionary (rather than the key
being omitted); and the eta value is never partially populated — it is
either the empty dictionary or a record carrying all six fields. -/
theorem eta_field_empty_not_absent (jobs : List Job) (inv : Inventory) :
    "eta" ∈ statusRespKeys ∧
    ((∀ j ∈ jobs, j.status = "done" →
        j.started.parse = none ∨ j.updated.parse = none) →
      computeEta jobs inv = .emptyDict) ∧
    (computeEta jobs inv = .emptyDict ∨ ∃ e, computeEta jobs inv = .populated e) := by
  refine ⟨by decide, fun h => ?_, ?_⟩
  · by_cases hd : jobs.filter doneWithTimes = []
    · exact computeEta_emptyDict jobs inv (Or.inl hd)
    · refine computeEta_emptyDict jobs inv (Or.inr ?_)
      cases hf : jobs.filter doneWithTimes with
      | nil => exact absurd hf hd
      | cons j rest =>
        have hjmem : j ∈ jobs.filter doneWithTimes := by
          rw [hf]
          exact List.mem_cons_self j rest
        have hjin : j ∈ jobs := List.mem_of_mem_filter hjmem
        have hjp : doneWithTimes j = true := List.of_mem_filter hjmem
        have hdone : j.status = "done" := by
          unfold doneWithTimes at hjp
          exact beq_iff_eq.mp ((Bool.and_eq_true _ _).mp hjp).1
        exact elapsedTimes_cons_none j rest (h j hjin hdone)
  · cases hc : computeEta jobs inv with
    | emptyDict => exact Or.inl rfl
    | populated e => exact Or.inr ⟨e, rfl⟩

/-- Witness for C1 (amended): a document whose only done job carries
present but unparseable timestamps: the whole batch fails to parse, and
the eta value is the empty dictionary while the `eta` key is present. -/
theorem eta_field_empty_not_absent_witness :
    "eta" ∈ statusRespKeys ∧
    computeEta [{ status := "done", started := Ts.unparseable, updated := Ts.unparseable }]
      { source_total := some 10, dest_done := some 2 } = .emptyDict := by
  have h := eta_field_empty_not_absent
    [{ status := "done", started := Ts.unparseable, updated := Ts.unparseable }]
    { source_total := some 10, dest_done := some 2 }
  exact ⟨h.1, h.2.1 (by decide)⟩

/-- C1 counterexample: for a valid document with an empty job list (so no
done job at all), `/api/status` succeeds and its response DOES contain an
`eta` field, holding the empty dictionary — "the response contains no eta
field at all" is false. -/
theorem eta_field_present_counterexample :
    "eta" ∈ statusRespKeys ∧
    (statusHandler
        { jobs := some [], stats := some (),
          runner := some { status := "idle", paused := false },
          inventory := none }).toOption.map StatusResp.eta
      = some EtaField.emptyDict := by
  refine ⟨by decide, rfl⟩

/-! ## C8: the ETA arithmetic -/

/-- The mean of a list of rationals (sum divided by length). -/
def listMean (l : List ℚ) : ℚ :=
  l.sum / l.length

/-- Spec-side elapsed seconds of one job: `updated − started` when both
timestamps parse, nothing otherwise. -/
def specElapsed (j : Job) : Option ℚ :=
  match j.started.parse, j.updated.parse with
  | some s, some e => some (e - s)
  | _, _ => none

/-- Spec-side elapsed times over the jobs with status done carrying both
parseable timestamps, in document order. -/
def specDoneTimes (jobs : List Job) : List ℚ :=
  jobs.filterMap (fun j => if j.status = "done" then specElapsed j else none)

/-- Spec-side completed count: `inventory.dest_done` plus the session
count of jobs with status done or skipped. -/
def specCompleted (jobs : List Job) (inv : Inventory) : Int :=
  inv.dest_done.getD 0 +
    (jobs.countP (fun j => j.status == "done" || j.status == "skipped") : Int)

/-- Spec-side remaining count: `max 0 (source_total − completed)`, or 0
when `source_total` is absent or zero. -/
def specRemaining (jobs : List Job) (inv : Inventory) : Int :=
  if inv.source_total.getD 0 = 0 then 0
  else max 0 (inv.source_total.getD 0 - specCompleted jobs inv)

theorem parse_none_of_truthy_false {t : Ts} (h : t.truthy = false) : t.parse = none := by
  cases t with
  | absent => rfl
  | unparseable => rfl
  | parseable q => simp [Ts.truthy] at h

theorem specElapsed_none_of_not_dwt {j : Job} (hd : j.status = "done")
    (h : doneWithTimes j = false) : specElapsed j = none := by
  unfold doneWithTimes at h
  rw [hd] at h
  simp only [beq_self_eq_true, Bool.true_and, Bool.and_eq_false_iff] at h
  unfold specElapsed
  rcases h with h | h
  · rw [parse_none_of_truthy_false h]
  · rw [parse_none_of_truthy_false h]
    cases hs : j.started.parse <;> rfl

/-- When the timing loop over the filtered done-with-timestamps jobs
succeeds, the elapsed times it produced are exactly the spec-side elapsed
times over done jobs with parseable timestamps. -/
theorem elapsedTimes_filter_spec (jobs : List Job) :
    ∀ times : List ℚ, elapsedTimes (jobs.filter doneWithTimes) = some times →
      times = specDoneTimes jobs := by
  induction jobs with
  | nil =>
    intro times h
    simp [elapsedTimes] at h
    simp [specDoneTimes, ← h]
  | cons j js ih =>
    intro times h
    by_cases hp : doneWithTimes j = true
    · rw [List.filter_cons_of_pos hp] at h
      unfold elapsedTimes at h
      cases hs : j.started.parse with
      | none => rw [hs] at h; exact absurd h (by simp)
      | some s =>
        cases hu : j.updated.parse with
        | none => rw [hs, hu] at h; exact absurd h (by simp)
        | some e =>
          cases hr : elapsedTimes (js.filter doneWithTimes) with
          | none => rw [hs, hu, hr] at h; exact absurd h (by simp)
          | some rest =>
            rw [hs, hu, hr] at h
            have htimes : times = (e - s) :: rest := (Option.some.inj h).symm
            subst htimes
            have hdone : j.status = "done" := by
              unfold doneWithTimes at hp
              exact beq_iff_eq.mp ((Bool.and_eq_true _ _).mp hp).1
            unfold specDoneTimes
            rw [List.filterMap_cons]
            rw [if_pos hdone]
            unfold specElapsed
            rw [hs, hu]
            dsimp only
            exact congrArg (List.cons (e - s)) (ih rest hr)
    · rw [List.filter_cons_of_neg hp] at h
      have hres := ih times h
      unfold specDoneTimes
      rw [List.filterMap_cons]
      by_cases hd : j.status = "done"
      · rw [if_pos hd,
          specElapsed_none_of_not_dwt hd (Bool.eq_false_iff.mpr hp)]
        exact hres
      · rw [if_neg hd]
        exact hres

/-- C8: whenever the ETA is populated, its fields satisfy the specified
arithmetic: `avg_per_file_secs` is the rounded mean of `updated − started`
in seconds over done jobs with both parseable timestamps; `completed`
equals `inventory.dest_done` plus the session count of done-or-skipped
jobs; `remaining` equals `max 0 (source_total − completed)` (0 when
`source_total` is absent or zero); and the hour and day estimates are
`remaining × avg ÷ 3600` and `÷ 86400` rounded to one decimal. -/
theorem eta_arithmetic (jobs : List Job) (inv : Inventory) (e : Eta)
    (h : computeEta jobs inv = .populated e) :
    e.avg_per_file_secs = pyRound (listMean (specDoneTimes jobs)) ∧
    e.completed = specCompleted jobs inv ∧
    e.remaining = specRemaining jobs inv ∧
    e.est_remaining_hours =
      pyRound1 ((e.remaining : ℚ) * listMean (specDoneTimes jobs) / 3600) ∧
    e.est_remaining_days =
      pyRound1 ((e.remaining : ℚ) * listMean (specDoneTimes jobs) / 86400) := by
  unfold computeEta at h
  dsimp only at h
  by_cases hd : jobs.filter doneWithTimes = []
  · rw [if_pos hd] at h
    exact absurd h (by simp)
  · rw [if_neg hd] at h
    cases he : elapsedTimes (jobs.filter doneWithTimes) with
    | none => rw [he] at h; exact absurd h (by simp)
    | some times =>
      rw [he] at h
      dsimp only at h
      have hrec := EtaField.populated.inj h
      subst hrec
      have htimes : times = specDoneTimes jobs := elapsedTimes_filter_spec jobs times he
      subst htimes
      refine ⟨rfl, ?_, ?_, rfl, rfl⟩
      · dsimp only
        unfold specCompleted
        rw [List.countP_eq_length_filter]
      · dsimp only
        unfold specRemaining specCompleted
        rw [List.countP_eq_length_filter]
        by_cases hz : inv.source_total.getD 0 = 0
        · rw [if_neg (by simpa using hz), if_pos hz]
        · rw [if_pos hz, if_neg hz]

/-- Example jobs for the spec's ETA arithmetic: two done jobs with elapsed
times 100s and 300s, plus one skipped job, so that three session jobs
count as done-or-skipped. -/
def exJ1 : Job := { status := "done", started := Ts.parseable 0, updated := Ts.parseable 100 }

def exJ2 : Job := { status := "done", started := Ts.parseable 50, updated := Ts.parseable 350 }

def exJ3 : Job := { status := "skipped", started := Ts.absent, updated := Ts.absent }

def exJobs : List Job := [exJ1, exJ2, exJ3]

/-- Example inventory: `source_total = 10`, `dest_done = 2`. -/
def exInv : Inventory := { source_total := some 10, dest_done := some 2 }

/-- The expected ETA record of the spec example. -/
def exEta : Eta :=
  { avg_per_file_secs := 200, source_total := 10, completed := 5, remaining := 5,
    est_remaining_hours := 3/10, est_remaining_days := 0 }

/-- Witness for C8, the spec's arithmetic example: two done jobs with
elapsed times 100 and 300 seconds, `source_total = 10`, `dest_done = 2`
and three session done-or-skipped jobs yield `avg_per_file_secs = 200`,
`completed = 5`, `remaining = 5` and `est_remaining_hours = 0.3`. -/
theorem eta_arithmetic_witness :
    computeEta exJobs exInv = .populated exEta ∧
    exEta.avg_per_file_secs = 200 ∧ exEta.completed = 5 ∧ exEta.remaining = 5 ∧
    exEta.est_remaining_hours = 3/10 ∧
    pyRound (listMean (specDoneTimes exJobs)) = 200 := by
  have havg : ([(100 : ℚ) - 0, 350 - 50].sum / ([(100 : ℚ) - 0, 350 - 50].length : ℚ))
      = 200 := by norm_num
  have h200 : pyRound (200 : ℚ) = 200 := by
    unfold pyRound
    rw [show ⌊(200 : ℚ)⌋ = 200 from by norm_num]
    norm_num
  have hhours : pyRound1 (((5 : ℤ) : ℚ) * 200 / 3600) = 3/10 := by
    unfold pyRound1 pyRound
    rw [show (((5 : ℤ) : ℚ) * 200 / 3600 * 10) = 25/9 from by norm_num]
    rw [show ⌊(25/9 : ℚ)⌋ = 2 from by norm_num [Int.floor_eq_iff]]
    norm_num
  have hdays : pyRound1 (((5 : ℤ) : ℚ) * 200 / 86400) = 0 := by
    unfold pyRound1 pyRound
    rw [show (((5 : ℤ) : ℚ) * 200 / 86400 * 10) = 25/216 from by norm_num]
    rw [show ⌊(25/216 : ℚ)⌋ = 0 from by norm_num [Int.floor_eq_iff]]
    norm_num
  have hc : computeEta exJobs exInv = .populated exEta := by
    unfold computeEta
    rw [show exJobs.filter doneWithTimes = [exJ1, exJ2] from rfl]
    rw [if_neg (by simp)]
    rw [show elapsedTimes [exJ1, exJ2] = some [(100 : ℚ) - 0, 350 - 50] from rfl]
    dsimp only
    refine congrArg EtaField.populated ?_
    unfold exEta
    rw [Eta.mk.injEq]
    have hrem : (if exInv.source_total.getD 0 ≠ 0 then
        max 0 (exInv.source_total.getD 0 -
          (exInv.dest_done.getD 0 +
            ((exJobs.filter
              (fun j => j.status == "done" || j.status == "skipped")).length : ℤ)))
      else 0) = (5 : ℤ) := by decide
    refine ⟨?_, by decide, by decide, ?_, ?_, ?_⟩
    · rw [havg]
      exact h200
    · exact hrem
    · rw [havg, hrem]
      exact hhours
    · rw [havg, hrem]
      exact hdays
  have h := eta_arithmetic exJobs exInv exEta hc
  exact ⟨hc, rfl, rfl, rfl, rfl, by rw [← h.1]; rfl⟩

end MediaMirror
